import Mathlib

/-!
Verification of the passkey-derived encryption and secure-storage subsystem
of the TOTP authenticator: the envelope cipher (`encryptData` / `decryptData`
in src/utils/crypto.ts composed with `deriveKeyFromPasskey`), and the session
and storage manager (`useSecureStorage`, `unlockStorage`, `lockStorage`,
`hasEncryptedData` in src/composables/useSecureStorage.ts).

Bytes are modelled as natural numbers below 256.  The platform primitives
(AES-GCM with HKDF key derivation, behind crypto.subtle) are modelled as an
abstract authenticated-encryption engine satisfying the contract the code
relies on; the repository functions are embedded as Lean functions over that
engine.  The base64 codec (btoa / atob together with the byte-loop wrappers
arrayBufferToBase64 / base64ToArrayBuffer) and the UTF-8 text codec
(TextEncoder / TextDecoder) are implemented concretely.
-/

namespace Totp

/-- A byte sequence: every element is below 256. -/
def IsBytes (l : List Nat) : Prop := ∀ b ∈ l, b < 256

instance : DecidablePred IsBytes := fun l => List.decidableBAll _ l

/-! ### Base64 codec (btoa / atob with the byte-array wrappers) -/

/-- The base64 alphabet used by the platform btoa. -/
def b64Chars : List Char :=
  ['A', 'B', 'C', 'D', 'E', 'F', 'G', 'H', 'I', 'J', 'K', 'L', 'M',
   'N', 'O', 'P', 'Q', 'R', 'S', 'T', 'U', 'V', 'W', 'X', 'Y', 'Z',
   'a', 'b', 'c', 'd', 'e', 'f', 'g', 'h', 'i', 'j', 'k', 'l', 'm',
   'n', 'o', 'p', 'q', 'r', 's', 't', 'u', 'v', 'w', 'x', 'y', 'z',
   '0', '1', '2', '3', '4', '5', '6', '7', '8', '9', '+', '/']

/-- The base64 digit for a 6-bit value. -/
def b64Char (n : Nat) : Char := b64Chars.getD n 'A'

/-- The 6-bit value of a base64 digit, if it is one. -/
def b64Val (c : Char) : Option Nat := List.indexOf? c b64Chars

theorem b64Val_b64Char : ∀ n, n < 64 → b64Val (b64Char n) = some n := by decide

theorem b64Chars_length : b64Chars.length = 64 := by decide

theorem b64Char_ne_eq (n : Nat) : b64Char n ≠ '=' := by
  by_cases h : n < 64
  · exact (by decide : ∀ m, m < 64 → b64Char m ≠ '=') n h
  · unfold b64Char
    rw [List.getD_eq_default _ _ (by rw [b64Chars_length]; omega)]
    decide

/-- btoa on a byte list: groups of three bytes become four base64 digits,
with trailing groups padded by the literal pad character. -/
def base64EncodeBytes : List Nat → List Char
  | [] => []
  | [a] => [b64Char (a / 4), b64Char (a % 4 * 16), '=', '=']
  | [a, b] => [b64Char (a / 4), b64Char (a % 4 * 16 + b / 16), b64Char (b % 16 * 4), '=']
  | a :: b :: c :: rest =>
    b64Char (a / 4) :: b64Char (a % 4 * 16 + b / 16) ::
    b64Char (b % 16 * 4 + c / 64) :: b64Char (c % 64) :: base64EncodeBytes rest

/-- atob on a base64 digit list, producing the decoded bytes. -/
def base64DecodeChars : List Char → Option (List Nat)
  | [] => some []
  | c1 :: c2 :: c3 :: c4 :: rest =>
    match b64Val c1, b64Val c2 with
    | some n1, some n2 =>
      if c3 = '=' then
        if c4 = '=' ∧ rest = [] ∧ n2 % 16 = 0 then some [n1 * 4 + n2 / 16] else none
      else
        match b64Val c3 with
        | some n3 =>
          if c4 = '=' then
            if rest = [] ∧ n3 % 4 = 0 then
              some [n1 * 4 + n2 / 16, n2 % 16 * 16 + n3 / 4]
            else none
          else
            match b64Val c4 with
            | some n4 =>
              (base64DecodeChars rest).map
                (fun ds =>
                  (n1 * 4 + n2 / 16) :: (n2 % 16 * 16 + n3 / 4) :: (n3 % 4 * 64 + n4) :: ds)
            | none => none
        | none => none
    | _, _ => none
  | _ => none

theorem base64_roundtrip : ∀ l, IsBytes l →
    base64DecodeChars (base64EncodeBytes l) = some l
  | [], _ => rfl
  | [a], h => by
    have ha : a < 256 := h a (by simp)
    have e1 : b64Val (b64Char (a / 4)) = some (a / 4) := b64Val_b64Char _ (by omega)
    have e2 : b64Val (b64Char (a % 4 * 16)) = some (a % 4 * 16) := b64Val_b64Char _ (by omega)
    have hm : a % 4 * 16 % 16 = 0 := by omega
    have hv : a / 4 * 4 + a % 4 * 16 / 16 = a := by omega
    simp only [base64EncodeBytes, base64DecodeChars, e1, e2]
    simp [hm, hv]
    all_goals omega
  | [a, b], h => by
    have ha : a < 256 := h a (by simp)
    have hb : b < 256 := h b (by simp)
    have e1 : b64Val (b64Char (a / 4)) = some (a / 4) := b64Val_b64Char _ (by omega)
    have e2 : b64Val (b64Char (a % 4 * 16 + b / 16)) = some (a % 4 * 16 + b / 16) :=
      b64Val_b64Char _ (by omega)
    have e3 : b64Val (b64Char (b % 16 * 4)) = some (b % 16 * 4) := b64Val_b64Char _ (by omega)
    have hne : b64Char (b % 16 * 4) ≠ '=' := b64Char_ne_eq _
    have hm : b % 16 * 4 % 4 = 0 := by omega
    have h1 : a / 4 * 4 + (a % 4 * 16 + b / 16) / 16 = a := by omega
    have h2 : (a % 4 * 16 + b / 16) % 16 * 16 + b % 16 * 4 / 4 = b := by omega
    simp only [base64EncodeBytes, base64DecodeChars, e1, e2, e3]
    simp [hne, hm, h1, h2]
    all_goals omega
  | a :: b :: c :: rest, h => by
    have ha : a < 256 := h a (by simp)
    have hb : b < 256 := h b (by simp)
    have hc : c < 256 := h c (by simp)
    have hrest : IsBytes rest := by
      intro x hx
      exact h x (by simp [hx])
    have ih := base64_roundtrip rest hrest
    have e1 : b64Val (b64Char (a / 4)) = some (a / 4) := b64Val_b64Char _ (by omega)
    have e2 : b64Val (b64Char (a % 4 * 16 + b / 16)) = some (a % 4 * 16 + b / 16) :=
      b64Val_b64Char _ (by omega)
    have e3 : b64Val (b64Char (b % 16 * 4 + c / 64)) = some (b % 16 * 4 + c / 64) :=
      b64Val_b64Char _ (by omega)
    have e4 : b64Val (b64Char (c % 64)) = some (c % 64) := b64Val_b64Char _ (by omega)
    have hne3 : b64Char (b % 16 * 4 + c / 64) ≠ '=' := b64Char_ne_eq _
    have hne4 : b64Char (c % 64) ≠ '=' := b64Char_ne_eq _
    have h1 : a / 4 * 4 + (a % 4 * 16 + b / 16) / 16 = a := by omega
    have h2 : (a % 4 * 16 + b / 16) % 16 * 16 + (b % 16 * 4 + c / 64) / 4 = b := by omega
    have h3 : (b % 16 * 4 + c / 64) % 4 * 64 + c % 64 = c := by omega
    simp only [base64EncodeBytes, base64DecodeChars, e1, e2, e3, e4]
    simp [hne3, hne4, ih, h1, h2, h3]

/-- Every base64 encoding built here decodes back to its bytes; packaged for
strings. -/
def base64Encode (l : List Nat) : String := String.mk (base64EncodeBytes l)

/-- atob lifted to strings. -/
def base64Decode (s : String) : Option (List Nat) := base64DecodeChars s.data

theorem base64Decode_base64Encode (l : List Nat) (h : IsBytes l) :
    base64Decode (base64Encode l) = some l := base64_roundtrip l h

/-! ### UTF-8 codec (TextEncoder / TextDecoder) -/

/-- TextEncoder on a single character: standard UTF-8 byte encoding of the
scalar value. -/
def utf8EncodeChar (c : Char) : List Nat :=
  if c.toNat < 128 then [c.toNat]
  else if c.toNat < 2048 then [192 + c.toNat / 64, 128 + c.toNat % 64]
  else if c.toNat < 65536 then [224 + c.toNat / 4096, 128 + c.toNat / 64 % 64, 128 + c.toNat % 64]
  else [240 + c.toNat / 262144, 128 + c.toNat / 4096 % 64, 128 + c.toNat / 64 % 64,
    128 + c.toNat % 64]

/-- The TextEncoder encoding of a string. -/
def strToBytes (s : String) : List Nat := s.data.flatMap utf8EncodeChar

/-- UTF-8 decoding worker; the fuel argument (any bound on the number of
characters) makes the recursion structural. -/
def utf8DecodeAux : Nat → List Nat → Option (List Char)
  | _, [] => some []
  | 0, _ :: _ => none
  | fuel + 1, b1 :: rest =>
    if b1 < 128 then
      (utf8DecodeAux fuel rest).map (fun cs => Char.ofNat b1 :: cs)
    else if b1 < 224 then
      match rest with
      | b2 :: rest2 =>
        (utf8DecodeAux fuel rest2).map (fun cs => Char.ofNat ((b1 - 192) * 64 + (b2 - 128)) :: cs)
      | [] => none
    else if b1 < 240 then
      match rest with
      | b2 :: b3 :: rest3 =>
        (utf8DecodeAux fuel rest3).map
          (fun cs => Char.ofNat ((b1 - 224) * 4096 + (b2 - 128) * 64 + (b3 - 128)) :: cs)
      | _ => none
    else
      match rest with
      | b2 :: b3 :: b4 :: rest4 =>
        (utf8DecodeAux fuel rest4).map
          (fun cs =>
            Char.ofNat ((b1 - 240) * 262144 + (b2 - 128) * 4096 + (b3 - 128) * 64 + (b4 - 128))
              :: cs)
      | _ => none

/-- The TextDecoder decoding, restricted to well-formed input (the only inputs the
round-trip path produces); ill-formed input yields none. -/
def utf8DecodeBytes (l : List Nat) : Option (List Char) := utf8DecodeAux l.length l

/-- A character scalar value is below 0xD800 or in (0xDFFF, 0x110000). -/
theorem char_toNat_valid (c : Char) : c.toNat < 55296 ∨ (57343 < c.toNat ∧ c.toNat < 1114112) :=
  c.valid

theorem utf8EncodeChar_bytes (c : Char) : IsBytes (utf8EncodeChar c) := by
  have hv := char_toNat_valid c
  intro b hb
  unfold utf8EncodeChar at hb
  split at hb <;> [skip; split at hb] <;> [skip; skip; split at hb]
  all_goals simp only [List.mem_cons, List.not_mem_nil, or_false] at hb
  all_goals omega

theorem utf8EncodeChar_length_pos (c : Char) : 1 ≤ (utf8EncodeChar c).length := by
  unfold utf8EncodeChar
  split <;> [skip; split] <;> [skip; skip; split] <;> simp

theorem utf8DecodeAux_encodeChar (c : Char) (l : List Nat) (fuel : Nat) :
    utf8DecodeAux (fuel + 1) (utf8EncodeChar c ++ l) =
      (utf8DecodeAux fuel l).map (fun cs => c :: cs) := by
  have hv := char_toNat_valid c
  by_cases h1 : c.toNat < 128
  · simp only [utf8EncodeChar, if_pos h1, List.cons_append, List.nil_append]
    simp only [utf8DecodeAux, if_pos h1, Char.ofNat_toNat]
  · by_cases h2 : c.toNat < 2048
    · simp only [utf8EncodeChar, if_neg h1, if_pos h2, List.cons_append, List.nil_append]
      have hb1 : ¬ 192 + c.toNat / 64 < 128 := by omega
      have hb2 : 192 + c.toNat / 64 < 224 := by omega
      simp only [utf8DecodeAux, if_neg hb1, if_pos hb2]
      have h : (192 + c.toNat / 64 - 192) * 64 + (128 + c.toNat % 64 - 128) = c.toNat := by omega
      rw [h, Char.ofNat_toNat]
    · by_cases h3 : c.toNat < 65536
      · simp only [utf8EncodeChar, if_neg h1, if_neg h2, if_pos h3, List.cons_append,
          List.nil_append]
        have hb1 : ¬ 224 + c.toNat / 4096 < 128 := by omega
        have hb2 : ¬ 224 + c.toNat / 4096 < 224 := by omega
        have hb3 : 224 + c.toNat / 4096 < 240 := by omega
        simp only [utf8DecodeAux, if_neg hb1, if_neg hb2, if_pos hb3]
        have h : (224 + c.toNat / 4096 - 224) * 4096 + (128 + c.toNat / 64 % 64 - 128) * 64 +
            (128 + c.toNat % 64 - 128) = c.toNat := by omega
        rw [h, Char.ofNat_toNat]
      · simp only [utf8EncodeChar, if_neg h1, if_neg h2, if_neg h3, List.cons_append,
          List.nil_append]
        have hb1 : ¬ 240 + c.toNat / 262144 < 128 := by omega
        have hb2 : ¬ 240 + c.toNat / 262144 < 224 := by omega
        have hb3 : ¬ 240 + c.toNat / 262144 < 240 := by omega
        simp only [utf8DecodeAux, if_neg hb1, if_neg hb2, if_neg hb3]
        have h : (240 + c.toNat / 262144 - 240) * 262144 + (128 + c.toNat / 4096 % 64 - 128) * 4096
            + (128 + c.toNat / 64 % 64 - 128) * 64 + (128 + c.toNat % 64 - 128) = c.toNat := by
          omega
        rw [h, Char.ofNat_toNat]

theorem utf8DecodeAux_nil (fuel : Nat) : utf8DecodeAux fuel [] = some [] := by
  cases fuel <;> rfl

theorem utf8DecodeAux_flatMap : ∀ cs : List Char, ∀ fuel, cs.length ≤ fuel →
    utf8DecodeAux fuel (cs.flatMap utf8EncodeChar) = some cs
  | [], fuel, _ => by
    rw [List.flatMap_nil, utf8DecodeAux_nil]
  | c :: cs, 0, h => by
    simp at h
  | c :: cs, fuel + 1, h => by
    rw [List.flatMap_cons, utf8DecodeAux_encodeChar,
      utf8DecodeAux_flatMap cs fuel (by simp at h; omega)]
    rfl

theorem length_le_flatMap_encode : ∀ cs : List Char,
    cs.length ≤ (cs.flatMap utf8EncodeChar).length
  | [] => le_refl 0
  | c :: cs => by
    rw [List.flatMap_cons, List.length_append, List.length_cons]
    have h1 := utf8EncodeChar_length_pos c
    have h2 := length_le_flatMap_encode cs
    omega

theorem utf8_roundtrip_chars (cs : List Char) :
    utf8DecodeBytes (cs.flatMap utf8EncodeChar) = some cs :=
  utf8DecodeAux_flatMap cs _ (length_le_flatMap_encode cs)

/-- The TextDecoder decoding of a byte list, total on the round-trip path. -/
def bytesToStr (l : List Nat) : String :=
  match utf8DecodeBytes l with
  | some cs => String.mk cs
  | none => ""

theorem bytesToStr_strToBytes (s : String) : bytesToStr (strToBytes s) = s := by
  unfold bytesToStr strToBytes
  rw [utf8_roundtrip_chars]

theorem strToBytes_bytes (s : String) : IsBytes (strToBytes s) := by
  intro b hb
  unfold strToBytes at hb
  rw [List.mem_flatMap] at hb
  obtain ⟨c, _, hc⟩ := hb
  exact utf8EncodeChar_bytes c b hc

theorem IsBytes.append {l1 l2 : List Nat} (h1 : IsBytes l1) (h2 : IsBytes l2) :
    IsBytes (l1 ++ l2) := by
  intro b hb
  rw [List.mem_append] at hb
  cases hb with
  | inl h => exact h1 b h
  | inr h => exact h2 b h

/-! ### String helpers for the format tag

The JS code tests and strips the literal record prefix with
value.startsWith and value.substring; the prefix is pure ASCII,
so character counting and UTF-16 unit counting agree. -/

/-- The format tag put in front of every encrypted record. -/
def encTag : String := "encrypted:"

/-- The startsWith test of the JS string API. -/
def strStartsWith (s pre : String) : Bool := decide (s.data.take pre.data.length = pre.data)

/-- The substring(n) operation of the JS string API. -/
def strDrop (s : String) (n : Nat) : String := String.mk (s.data.drop n)

/-- The stored form of an encrypted record: the template literal
app code writes as encrypted: followed by the base64 payload. -/
def tagged (s : String) : String := String.mk (encTag.data ++ s.data)

theorem strStartsWith_tagged (s : String) : strStartsWith (tagged s) encTag = true := by
  unfold strStartsWith tagged
  rw [decide_eq_true_iff]
  have h : encTag.data.length = 10 := rfl
  rw [h]
  rw [show (10 : Nat) = encTag.data.length from rfl, List.take_left]

theorem strDrop_tagged (s : String) : strDrop (tagged s) 10 = s := by
  unfold strDrop tagged
  rw [show (10 : Nat) = encTag.data.length from rfl, List.drop_left]

/-! ### The authenticated-encryption engine

encryptData / decryptData call crypto.subtle (HKDF key derivation via
deriveKeyFromPasskey followed by AES-GCM).  Those platform primitives are not
part of the repository; they are modelled as an abstract engine whose enc
takes the keying material, the per-record salt (the HKDF salt), the nonce and
the plaintext bytes, and whose contract is the AEAD contract the code relies
on: decryption with the deriving key succeeds and inverts, decryption with
different keying material fails the tag check, and ciphertexts are bytes. -/

/-- Valid keying material: the 32-byte PRF output of the passkey ceremony. -/
def KMValid (km : List Nat) : Prop := km.length = 32 ∧ IsBytes km

instance : DecidablePred KMValid := fun km => by
  unfold KMValid
  infer_instance

/-- Abstract AES-GCM-with-HKDF engine and the contract the code relies on. -/
structure AEAD where
  enc : List Nat → List Nat → List Nat → List Nat → List Nat
  dec : List Nat → List Nat → List Nat → List Nat → Option (List Nat)
  dec_enc : ∀ km salt iv pt, KMValid km → dec km salt iv (enc km salt iv pt) = some pt
  auth : ∀ km km2 salt iv pt, KMValid km → KMValid km2 → km ≠ km2 →
    dec km2 salt iv (enc km salt iv pt) = none
  enc_bytes : ∀ km salt iv pt, KMValid km → IsBytes pt → IsBytes (enc km salt iv pt)

/-- The single failure kind of decryptData: the code catches every engine
error and rethrows one authentication-failure error. -/
inductive CryptoError
  | authenticationFailed
deriving DecidableEq

deriving instance DecidableEq for Except

/-- encryptData of src/utils/crypto.ts: fresh salt (16B) and IV (12B) arrive
as arguments standing for the two getRandomValues calls; the function derives
the key, encrypts, concatenates salt, IV and ciphertext and base64-encodes. -/
def encryptData (A : AEAD) (salt iv : List Nat) (data : String) (km : List Nat) : String :=
  base64Encode (salt ++ iv ++ A.enc km salt iv (strToBytes data))

/-- decryptData of src/utils/crypto.ts: base64-decode, split salt, IV and
ciphertext at offsets 16 and 28, derive the key and decrypt; every failure
surfaces as the single authentication-failure error. -/
def decryptData (A : AEAD) (encryptedData : String) (km : List Nat) : Except CryptoError String :=
  match base64Decode encryptedData with
  | none => Except.error CryptoError.authenticationFailed
  | some combined =>
    match A.dec km (combined.take 16) ((combined.drop 16).take 12) (combined.drop 28) with
    | some pt => Except.ok (bytesToStr pt)
    | none => Except.error CryptoError.authenticationFailed

theorem envelope_take16 {salt iv ct : List Nat} (hs : salt.length = 16) :
    (salt ++ iv ++ ct).take 16 = salt := by
  rw [List.append_assoc, show (16 : Nat) = salt.length from hs.symm, List.take_left]

theorem envelope_mid12 {salt iv ct : List Nat} (hs : salt.length = 16) (hi : iv.length = 12) :
    ((salt ++ iv ++ ct).drop 16).take 12 = iv := by
  rw [List.append_assoc, show (16 : Nat) = salt.length from hs.symm, List.drop_left]
  rw [show (12 : Nat) = iv.length from hi.symm, List.take_left]

theorem envelope_drop28 {salt iv ct : List Nat} (hs : salt.length = 16) (hi : iv.length = 12) :
    (salt ++ iv ++ ct).drop 28 = ct := by
  have h : (28 : Nat) = (salt ++ iv).length := by
    rw [List.length_append]
    omega
  rw [h, List.drop_left]

/-- Helper: decryptData applied to an encryptData envelope, with the keying
material used for decryption left free. -/
theorem decryptData_encryptData_dec {A : AEAD} {salt iv : List Nat} {P : String}
    {km km2 : List Nat} (hkm : KMValid km)
    (hs : salt.length = 16) (hsb : IsBytes salt) (hi : iv.length = 12) (hib : IsBytes iv) :
    decryptData A (encryptData A salt iv P km) km2 =
      match A.dec km2 salt iv (A.enc km salt iv (strToBytes P)) with
      | some pt => Except.ok (bytesToStr pt)
      | none => Except.error CryptoError.authenticationFailed := by
  unfold encryptData decryptData
  rw [base64Decode_base64Encode _
    (IsBytes.append (IsBytes.append hsb hib)
      (A.enc_bytes km salt iv (strToBytes P) hkm (strToBytes_bytes P)))]
  simp only [envelope_take16 hs, envelope_mid12 hs hi, envelope_drop28 hs hi]

/-- Round-trip helper: decrypting with the sealing keying material returns the
plaintext. -/
theorem decryptData_encryptData {A : AEAD} {salt iv : List Nat} {P : String} {km : List Nat}
    (hkm : KMValid km)
    (hs : salt.length = 16) (hsb : IsBytes salt) (hi : iv.length = 12) (hib : IsBytes iv) :
    decryptData A (encryptData A salt iv P km) km = Except.ok P := by
  rw [decryptData_encryptData_dec hkm hs hsb hi hib]
  rw [A.dec_enc km salt iv (strToBytes P) hkm]
  show Except.ok (bytesToStr (strToBytes P)) = Except.ok P
  rw [bytesToStr_strToBytes]

/-- Key-sensitivity helper: decrypting with different keying material fails
with the authentication-failure kind. -/
theorem decryptData_encryptData_wrongKey {A : AEAD} {salt iv : List Nat} {P : String}
    {km km2 : List Nat} (hkm : KMValid km) (hkm2 : KMValid km2) (hne : km ≠ km2)
    (hs : salt.length = 16) (hsb : IsBytes salt) (hi : iv.length = 12) (hib : IsBytes iv) :
    decryptData A (encryptData A salt iv P km) km2 =
      Except.error CryptoError.authenticationFailed := by
  rw [decryptData_encryptData_dec hkm hs hsb hi hib]
  rw [A.auth km km2 salt iv (strToBytes P) hkm hkm2 hne]

/-! ### JSON serialization

The storage layer passes its typed value through JSON.stringify and
JSON.parse and otherwise treats it as opaque; the pair is modelled as an
abstract codec.  JSON.stringify output starts with a quote, brace, bracket,
digit, minus sign, or one of true/false/null, never with the record tag, and
JSON.parse of a stringify output returns the original value; both facts are
part of the codec contract. -/

structure Codec (α : Type) where
  str : α → String
  par : String → Option α
  par_str : ∀ v, par (str v) = some v
  str_not_tagged : ∀ v, strStartsWith (str v) encTag = false

/-! ### Session state and persistence layer

The module-level refs isUnlocked and currentPasskeyKeyMaterial of
useSecureStorage.ts form the session state; localStorage is the persistence
layer, a key-to-string mapping enumerated in insertion order. -/

/-- The global session state: the lock flag and the key-material holder. -/
structure Session where
  isUnlocked : Bool
  currentPasskeyKeyMaterial : Option (List Nat)
deriving DecidableEq

/-- Process start: locked, no keying material. -/
def initialSession : Session := ⟨false, none⟩

/-- localStorage contents: key/value pairs in enumeration order. -/
abbrev Storage := List (String × String)

/-- The getItem operation of localStorage. -/
def getItem : Storage → String → Option String
  | [], _ => none
  | (k2, v) :: rest, k => if k2 = k then some v else getItem rest k

/-- The setItem operation of localStorage: overwrite in place or append a new slot. -/
def setItem : Storage → String → String → Storage
  | [], k, v => [(k, v)]
  | (k2, v2) :: rest, k, v =>
    if k2 = k then (k, v) :: rest else (k2, v2) :: setItem rest k v

/-- hasEncryptedData of useSecureStorage.ts: scan all records for the
encrypted-format tag. -/
def hasEncryptedData (st : Storage) : Bool :=
  st.any (fun kv => strStartsWith kv.2 encTag)

/-- The validation loop inside unlockStorage: walk the records in enumeration
order; on each record bearing the tag, try decryptData with the candidate
keying material; stop at the first success, continue past failures.  Returns
whether some attempt succeeded together with the number of decryption
attempts performed. -/
def unlockScan (A : AEAD) (km : List Nat) : Storage → Bool × Nat
  | [] => (false, 0)
  | (_, v) :: rest =>
    if strStartsWith v encTag then
      match decryptData A (strDrop v 10) km with
      | Except.ok _ => (true, 1)
      | Except.error _ => ((unlockScan A km rest).1, (unlockScan A km rest).2 + 1)
    else unlockScan A km rest

/-- The failure kind of unlockStorage. -/
inductive UnlockError
  | invalidKeyMaterial
deriving DecidableEq

/-- unlockStorage of useSecureStorage.ts: if any encrypted record exists,
validate the keying material against the stored records before committing;
on failure the session is left as it was and the error is raised; on success
the material is adopted and the state becomes unlocked. -/
def unlockStorage (A : AEAD) (st : Storage) (km : List Nat) (s : Session) :
    Session × Option UnlockError :=
  if hasEncryptedData st then
    if (unlockScan A km st).1 then (⟨true, some km⟩, none)
    else (s, some UnlockError.invalidKeyMaterial)
  else (⟨true, some km⟩, none)

/-- lockStorage of useSecureStorage.ts: unconditionally clear the keying
material and the unlock flag. -/
def lockStorage (_s : Session) : Session := ⟨false, none⟩

/-- Failure kinds of loadData, as distinguished by the thrown messages: the
rethrown invalid-authentication error, the encrypted-but-no-session error,
and a JSON parse error. -/
inductive LoadError
  | invalidKeyMaterial
  | encryptionSessionRequired
  | parseFailed
deriving DecidableEq

/-- Outcome of loadData: the resulting data ref together with the error ref
through which failures reach the caller (the outer catch records the message
and resets the data to the default). -/
structure LoadResult (α : Type) where
  data : α
  error : Option LoadError
deriving DecidableEq

/-- loadData of useSecureStorage.ts.  canUse is the canUseEncryption constant
(crypto availability and the encryption preference). -/
def loadData {α : Type} (A : AEAD) (J : Codec α) (canUse : Bool) (s : Session) (st : Storage)
    (key : String) (deflt : α) : LoadResult α :=
  match getItem st key with
  | none => ⟨deflt, none⟩
  | some stored =>
    if strStartsWith stored encTag then
      if canUse then
        match s.currentPasskeyKeyMaterial with
        | some km =>
          match decryptData A (strDrop stored 10) km with
          | Except.ok json =>
            match J.par json with
            | some v => ⟨v, none⟩
            | none => ⟨deflt, some LoadError.parseFailed⟩
          | Except.error _ => ⟨deflt, some LoadError.invalidKeyMaterial⟩
        | none => ⟨deflt, some LoadError.encryptionSessionRequired⟩
      else ⟨deflt, some LoadError.encryptionSessionRequired⟩
    else
      match J.par stored with
      | some v => ⟨v, none⟩
      | none => ⟨deflt, some LoadError.parseFailed⟩

/-- saveData of useSecureStorage.ts: serialize the value; with encryption
usable and keying material held, seal and write the tagged blob, otherwise
write the plain JSON.  salt and iv stand for the getRandomValues output of
the inner encryptData call. -/
def saveData {α : Type} (A : AEAD) (J : Codec α) (salt iv : List Nat) (canUse : Bool)
    (s : Session) (st : Storage) (key : String) (v : α) : Storage :=
  if canUse then
    match s.currentPasskeyKeyMaterial with
    | some km => setItem st key (tagged (encryptData A salt iv (J.str v) km))
    | none => setItem st key (J.str v)
  else setItem st key (J.str v)

/-- Failure kinds of migrateToEncrypted: the cannot-migrate guard error and a
JSON parse error on the stored plaintext. -/
inductive MigrateError
  | notAvailable
  | parseFailed
deriving DecidableEq

/-- migrateToEncrypted of useSecureStorage.ts: requires encryption usable and
keying material held; a stored plaintext record is parsed into the data ref
and re-saved (encrypted, since keying material is held); a missing or
already-encrypted record is left untouched.  Returns the new storage and the
new data ref value if it changed. -/
def migrateToEncrypted {α : Type} (A : AEAD) (J : Codec α) (salt iv : List Nat) (canUse : Bool)
    (s : Session) (st : Storage) (key : String) :
    Except MigrateError (Storage × Option α) :=
  if canUse then
    match s.currentPasskeyKeyMaterial with
    | some _ =>
      match getItem st key with
      | some stored =>
        if strStartsWith stored encTag then Except.ok (st, none)
        else
          match J.par stored with
          | some v => Except.ok (saveData A J salt iv canUse s st key v, some v)
          | none => Except.error MigrateError.parseFailed
      | none => Except.ok (st, none)
    | none => Except.error MigrateError.notAvailable
  else Except.error MigrateError.notAvailable

/-- A session-lifecycle call: an unlockStorage attempt against the storage
contents at that moment, or a lockStorage call. -/
inductive SessionOp
  | unlock (st : Storage) (km : List Nat)
  | lock

/-- Effect of one lifecycle call on the session. -/
def applyOp (A : AEAD) (s : Session) : SessionOp → Session
  | SessionOp.unlock st km => (unlockStorage A st km s).1
  | SessionOp.lock => lockStorage s

/-- Run a sequence of lifecycle calls. -/
def runOps (A : AEAD) : Session → List SessionOp → Session
  | s, [] => s
  | s, op :: ops => runOps A (applyOp A s op) ops

/-! ### Concrete engine and codec instances

Witness instances used to evaluate the theorems on concrete inputs: a model
engine satisfying the AEAD contract exactly (the ciphertext carries the
plaintext and a 32-byte tag identifying the keying material), and the JSON
codec at type Bool. -/

/-- Model engine: ciphertext = plaintext followed by the 32-byte keying
material as tag; decryption checks the tag. -/
def modelAEAD : AEAD where
  enc km _ _ pt := pt ++ km
  dec km _ _ ct :=
    if 32 ≤ ct.length ∧ ct.drop (ct.length - 32) = km then
      some (ct.take (ct.length - 32))
    else none
  dec_enc := by
    intro km salt iv pt hkm
    have hd : (pt ++ km).length - 32 = pt.length := by
      rw [List.length_append, hkm.1]
      omega
    have hge : 32 ≤ (pt ++ km).length := by
      rw [List.length_append, hkm.1]
      omega
    simp only [hd]
    rw [if_pos ⟨hge, List.drop_left pt km⟩, List.take_left]
  auth := by
    intro km km2 salt iv pt hkm hkm2 hne
    have hd : (pt ++ km).length - 32 = pt.length := by
      rw [List.length_append, hkm.1]
      omega
    simp only [hd]
    rw [if_neg]
    intro hcon
    exact hne ((List.drop_left pt km).symm.trans hcon.2)
  enc_bytes := by
    intro km salt iv pt hkm hpt
    exact IsBytes.append hpt hkm.2

/-- JSON codec at type Bool: JSON.stringify of the two booleans. -/
def boolCodec : Codec Bool where
  str b := if b then "true" else "false"
  par s := if s = "true" then some true else if s = "false" then some false else none
  par_str := by decide
  str_not_tagged := by decide

/-! ### Helper lemmas about the storage and the unlock scan -/

theorem getItem_setItem_self : ∀ st : Storage, ∀ k v, getItem (setItem st k v) k = some v
  | [], k, v => by simp [setItem, getItem]
  | (k2, v2) :: rest, k, v => by
    by_cases h : k2 = k
    · simp [setItem, getItem, h]
    · simp only [setItem, if_neg h, getItem]
      exact getItem_setItem_self rest k v

theorem getItem_setItem_other : ∀ st : Storage, ∀ k v k3, k3 ≠ k →
    getItem (setItem st k v) k3 = getItem st k3
  | [], k, v, k3, hne => by
    simp only [setItem, getItem]
    rw [if_neg (fun h => hne h.symm)]
  | (k2, v2) :: rest, k, v, k3, hne => by
    by_cases h : k2 = k
    · subst h
      simp only [setItem, if_pos rfl, getItem]
      rw [if_neg (fun hc => hne hc.symm), if_neg (fun hc => hne hc.symm)]
    · simp only [setItem, if_neg h, getItem]
      by_cases h2 : k2 = k3
      · rw [if_pos h2, if_pos h2]
      · rw [if_neg h2, if_neg h2]
        exact getItem_setItem_other rest k v k3 hne

/-- Whether a stored payload decrypts under the keying material. -/
def decSucceeds (A : AEAD) (km : List Nat) (p : String) : Bool :=
  match decryptData A p km with
  | Except.ok _ => true
  | Except.error _ => false

/-- The payloads of the tagged records of the storage, in enumeration
order. -/
def encryptedPayloads (st : Storage) : List String :=
  (st.filter (fun kv => strStartsWith kv.2 encTag)).map (fun kv => strDrop kv.2 10)

/-- Number of validation attempts the unlock loop performs: the failing
payloads before the first success, plus that success when there is one. -/
def attemptsSpec (A : AEAD) (km : List Nat) (st : Storage) : Nat :=
  if ((encryptedPayloads st).takeWhile (fun p => ! decSucceeds A km p)).length =
      (encryptedPayloads st).length
  then (encryptedPayloads st).length
  else ((encryptedPayloads st).takeWhile (fun p => ! decSucceeds A km p)).length + 1

/-- The unlock loop tries the encrypted payloads in order until the first
success: it commits exactly when some payload decrypts, and the number of
attempts counts every failing payload before the first success. -/
theorem unlockScan_eq (A : AEAD) (km : List Nat) : ∀ st : Storage,
    unlockScan A km st =
      ((encryptedPayloads st).any (decSucceeds A km), attemptsSpec A km st)
  | [] => rfl
  | (k, v) :: rest => by
    have ih := unlockScan_eq A km rest
    by_cases htag : strStartsWith v encTag = true
    · cases hdec : decryptData A (strDrop v 10) km with
      | ok out =>
        have hsucc : decSucceeds A km (strDrop v 10) = true := by
          unfold decSucceeds
          rw [hdec]
        simp only [unlockScan, if_pos htag, hdec, attemptsSpec, encryptedPayloads,
          List.filter_cons, htag]
        simp [hsucc]
      | error e =>
        have hfail : decSucceeds A km (strDrop v 10) = false := by
          unfold decSucceeds
          rw [hdec]
        simp only [unlockScan, if_pos htag, hdec, ih]
        simp only [attemptsSpec, encryptedPayloads, List.filter_cons, htag]
        simp only [if_true, List.map_cons, List.any_cons, hfail, Bool.false_or,
          List.takeWhile_cons, Bool.not_false, if_pos rfl, List.length_cons, Prod.mk.injEq,
          eq_self_iff_true, true_and]
        by_cases hlen :
            (((rest.filter (fun kv => strStartsWith kv.2 encTag)).map
                (fun kv => strDrop kv.2 10)).takeWhile
              (fun p => ! decSucceeds A km p)).length =
            ((rest.filter (fun kv => strStartsWith kv.2 encTag)).map
              (fun kv => strDrop kv.2 10)).length
        · rw [if_pos hlen, if_pos (by omega)]
        · rw [if_neg hlen, if_neg (by omega)]
    · have htag2 : strStartsWith v encTag = false := by
        cases h : strStartsWith v encTag
        · rfl
        · exact absurd h htag
      simp only [unlockScan, htag2, Bool.false_eq_true, if_false, ih, attemptsSpec,
        encryptedPayloads, List.filter_cons, htag2]

/-- The coupling invariant of the session state. -/
def SessionCoupled (s : Session) : Prop :=
  s.isUnlocked = s.currentPasskeyKeyMaterial.isSome

theorem applyOp_coupled (A : AEAD) (s : Session) (op : SessionOp)
    (h : SessionCoupled s) : SessionCoupled (applyOp A s op) := by
  cases op with
  | lock => rfl
  | unlock st km =>
    show SessionCoupled (unlockStorage A st km s).1
    unfold unlockStorage
    by_cases henc : hasEncryptedData st = true
    · rw [if_pos henc]
      by_cases hscan : (unlockScan A km st).1 = true
      · rw [if_pos hscan]
        rfl
      · rw [if_neg hscan]
        exact h
    · rw [if_neg henc]
      rfl

theorem runOps_coupled (A : AEAD) : ∀ ops : List SessionOp, ∀ s : Session,
    SessionCoupled s → SessionCoupled (runOps A s ops)
  | [], _, h => h
  | op :: ops, s, h => runOps_coupled A ops (applyOp A s op) (applyOp_coupled A s op h)

/-- The tag-prefixed record is the string concatenation of the tag and the
payload. -/
theorem tagged_eq (s : String) : tagged s = encTag ++ s := by
  unfold tagged
  rw [show encTag ++ s = String.mk ((encTag ++ s).data) from rfl, String.data_append]

/-! ### Concrete witness material -/

/-- A 32-byte keying material. -/
def kmA : List Nat := List.replicate 32 1

/-- A different 32-byte keying material. -/
def kmB : List Nat := List.replicate 32 2

/-- A 16-byte salt. -/
def salt0 : List Nat := List.replicate 16 3

/-- A 12-byte nonce. -/
def iv0 : List Nat := List.replicate 12 4

/-- A storage with two encrypted records sealed under different keying
material: the first does not decrypt under kmB, the second does. -/
def cexStorage : Storage :=
  [("alpha", tagged (encryptData modelAEAD salt0 iv0 "false" kmA)),
   ("beta", tagged (encryptData modelAEAD salt0 iv0 "true" kmB))]

/-- The scan succeeds exactly when some stored record bears the tag and its
payload decrypts under the candidate keying material. -/
theorem unlockScan_fst_iff (A : AEAD) (km : List Nat) : ∀ st : Storage,
    (unlockScan A km st).1 = true ↔
      ∃ kv ∈ st, strStartsWith kv.2 encTag = true ∧
        ∃ out, decryptData A (strDrop kv.2 10) km = Except.ok out
  | [] => by
    simp [unlockScan]
  | (k, v) :: rest => by
    by_cases htag : strStartsWith v encTag = true
    · cases hdec : decryptData A (strDrop v 10) km with
      | ok out =>
        simp only [unlockScan, if_pos htag, hdec]
        constructor
        · intro _
          exact ⟨(k, v), by simp, htag, out, hdec⟩
        · intro _
          trivial
      | error e =>
        simp only [unlockScan, if_pos htag, hdec]
        rw [unlockScan_fst_iff A km rest]
        constructor
        · intro ⟨kv, hmem, htag2, hout⟩
          exact ⟨kv, by simp [hmem], htag2, hout⟩
        · intro ⟨kv, hmem, htag2, out, hout⟩
          rcases List.mem_cons.mp hmem with heq | hmem2
          · rw [heq] at hout
            rw [hout] at hdec
            cases hdec
          · exact ⟨kv, hmem2, htag2, out, hout⟩
    · simp only [unlockScan, if_neg htag]
      rw [unlockScan_fst_iff A km rest]
      constructor
      · intro ⟨kv, hmem, htag2, hout⟩
        exact ⟨kv, by simp [hmem], htag2, hout⟩
      · intro ⟨kv, hmem, htag2, hout⟩
        rcases List.mem_cons.mp hmem with heq | hmem2
        · rw [heq] at htag2
          exact absurd htag2 htag
        · exact ⟨kv, hmem2, htag2, hout⟩

/-! ### The claims -/

/-- Claim C2: for every plaintext string P and every valid keying material K,
decrypting the output of seal with the same keying material returns P
exactly: decryptData(encryptData(P, K), K) == P.  The fresh salt and nonce of
the seal call appear as arguments with their generated lengths. -/
theorem C2_roundtrip (A : AEAD) (salt iv : List Nat) (P : String) (K : List Nat)
    (hkm : KMValid K) (hs : salt.length = 16) (hsb : IsBytes salt)
    (hi : iv.length = 12) (hib : IsBytes iv) :
    decryptData A (encryptData A salt iv P K) K = Except.ok P :=
  decryptData_encryptData hkm hs hsb hi hib

/-- Witness for C2 at concrete inputs. -/
theorem C2_roundtrip_witness :
    decryptData modelAEAD (encryptData modelAEAD salt0 iv0 "hello" kmA) kmA =
      Except.ok "hello" :=
  C2_roundtrip modelAEAD salt0 iv0 "hello" kmA (by decide) (by decide) (by decide) (by decide)
    (by decide)

/-- Claim C5: for every plaintext P and distinct valid keying materials
K1 ≠ K2, decrypting a blob sealed under K1 with K2 fails with the
authentication-failure kind; the error is the only failure outcome, there is
no partial success. -/
theorem C5_key_sensitivity (A : AEAD) (salt iv : List Nat) (P : String) (K1 K2 : List Nat)
    (h1 : KMValid K1) (h2 : KMValid K2) (hne : K1 ≠ K2)
    (hs : salt.length = 16) (hsb : IsBytes salt) (hi : iv.length = 12) (hib : IsBytes iv) :
    decryptData A (encryptData A salt iv P K1) K2 =
      Except.error CryptoError.authenticationFailed :=
  decryptData_encryptData_wrongKey h1 h2 hne hs hsb hi hib

/-- Witness for C5 at concrete inputs. -/
theorem C5_key_sensitivity_witness :
    decryptData modelAEAD (encryptData modelAEAD salt0 iv0 "hello" kmA) kmB =
      Except.error CryptoError.authenticationFailed :=
  C5_key_sensitivity modelAEAD salt0 iv0 "hello" kmA kmB (by decide) (by decide) (by decide)
    (by decide) (by decide) (by decide) (by decide)

/-- Claim C4: while the session holds keying material, the record persisted by
saveData is exactly the literal prefix followed by the base64 encoding of
salt(16B) ++ nonce(12B) ++ ciphertext, the decoded bytes split back into
salt, nonce and ciphertext at the fixed offsets 16 and 28, and decryption of
the payload recovers the plaintext. -/
theorem C4_envelope_format {α : Type} (A : AEAD) (J : Codec α) (salt iv : List Nat)
    (s : Session) (st : Storage) (key : String) (v : α) (km : List Nat)
    (hsess : s.currentPasskeyKeyMaterial = some km) (hkm : KMValid km)
    (hs : salt.length = 16) (hsb : IsBytes salt) (hi : iv.length = 12) (hib : IsBytes iv) :
    ∃ ct, ct = A.enc km salt iv (strToBytes (J.str v)) ∧
      getItem (saveData A J salt iv true s st key v) key =
        some (encTag ++ base64Encode (salt ++ iv ++ ct)) ∧
      base64Decode (base64Encode (salt ++ iv ++ ct)) = some (salt ++ iv ++ ct) ∧
      (salt ++ iv ++ ct).take 16 = salt ∧
      ((salt ++ iv ++ ct).drop 16).take 12 = iv ∧
      (salt ++ iv ++ ct).drop 28 = ct ∧
      decryptData A (base64Encode (salt ++ iv ++ ct)) km = Except.ok (J.str v) := by
  have hbytes : IsBytes (salt ++ iv ++ A.enc km salt iv (strToBytes (J.str v))) :=
    IsBytes.append (IsBytes.append hsb hib)
      (A.enc_bytes km salt iv (strToBytes (J.str v)) hkm (strToBytes_bytes _))
  refine ⟨A.enc km salt iv (strToBytes (J.str v)), rfl, ?_, ?_, ?_, ?_, ?_, ?_⟩
  · unfold saveData
    rw [hsess]
    show getItem (setItem st key (tagged (encryptData A salt iv (J.str v) km))) key = _
    rw [getItem_setItem_self, tagged_eq]
    rfl
  · exact base64Decode_base64Encode _ hbytes
  · exact envelope_take16 hs
  · exact envelope_mid12 hs hi
  · exact envelope_drop28 hs hi
  · exact decryptData_encryptData hkm hs hsb hi hib

/-- Claim C1: with at least one encrypted record present, unlocking with
keying material that fails decryption on every encrypted record raises the
invalid-key-material error and leaves the session unchanged (the material is
never adopted); with keying material that decrypts some encrypted record,
unlock always commits to unlocked holding that material. -/
theorem C1_unlock_validation (A : AEAD) (st : Storage) (s : Session) (K : List Nat)
    (henc : hasEncryptedData st = true) :
    ((∀ kv ∈ st, strStartsWith kv.2 encTag = true →
        ∀ out, decryptData A (strDrop kv.2 10) K ≠ Except.ok out) →
      unlockStorage A st K s = (s, some UnlockError.invalidKeyMaterial)) ∧
    ((∃ kv ∈ st, strStartsWith kv.2 encTag = true ∧
        ∃ out, decryptData A (strDrop kv.2 10) K = Except.ok out) →
      unlockStorage A st K s = (⟨true, some K⟩, none)) := by
  constructor
  · intro hall
    have hscan : ¬ (unlockScan A K st).1 = true := by
      rw [unlockScan_fst_iff]
      intro ⟨kv, hmem, htag, out, hout⟩
      exact hall kv hmem htag out hout
    unfold unlockStorage
    rw [if_pos henc, if_neg hscan]
  · intro hex
    have hscan : (unlockScan A K st).1 = true := (unlockScan_fst_iff A K st).mpr hex
    unfold unlockStorage
    rw [if_pos henc, if_pos hscan]

/-- Witness for C1 at concrete inputs: the second record of the storage
decrypts under the supplied material, so unlock commits. -/
theorem C1_unlock_validation_witness :
    unlockStorage modelAEAD cexStorage kmB initialSession = (⟨true, some kmB⟩, none) :=
  (C1_unlock_validation modelAEAD cexStorage initialSession kmB (by decide)).2
    ⟨("beta", tagged (encryptData modelAEAD salt0 iv0 "true" kmB)), by decide, by decide,
      "true", by decide⟩

/-- Counterexample to claim C3 as stated: with two encrypted records whose
first does not decrypt under the supplied material, the unlock validation
performs two decryption attempts, trying a further encrypted record after
the first attempt fails, and still commits to unlocked. -/
theorem C3_counterexample :
    unlockScan modelAEAD kmB cexStorage = (true, 2) ∧
    unlockStorage modelAEAD cexStorage kmB initialSession =
      (⟨true, some kmB⟩, none) := by decide

/-- Claim C3 (amended): the unlock validation tries the encrypted records in
enumeration order and stops at the first payload that decrypts; after a
failed attempt it continues with the next encrypted record, so several
records may be tried before the transition commits; it commits to unlocked
exactly when some encrypted record decrypts. -/
theorem C3_unlock_attempts (A : AEAD) (K : List Nat) (st : Storage) (s : Session) :
    unlockScan A K st =
      ((encryptedPayloads st).any (decSucceeds A K), attemptsSpec A K st) ∧
    (hasEncryptedData st = true →
      unlockStorage A st K s =
        if (encryptedPayloads st).any (decSucceeds A K) then (⟨true, some K⟩, none)
        else (s, some UnlockError.invalidKeyMaterial)) := by
  refine ⟨unlockScan_eq A K st, ?_⟩
  intro henc
  have hfst : (unlockScan A K st).1 = (encryptedPayloads st).any (decSucceeds A K) := by
    rw [unlockScan_eq]
  unfold unlockStorage
  rw [if_pos henc, hfst]

/-- Witness for C3 (amended) at concrete inputs. -/
theorem C3_unlock_attempts_witness :
    unlockScan modelAEAD kmA cexStorage =
      ((encryptedPayloads cexStorage).any (decSucceeds modelAEAD kmA),
        attemptsSpec modelAEAD kmA cexStorage) ∧
    unlockStorage modelAEAD cexStorage kmA initialSession =
      (if (encryptedPayloads cexStorage).any (decSucceeds modelAEAD kmA)
        then (⟨true, some kmA⟩, none)
        else (initialSession, some UnlockError.invalidKeyMaterial)) :=
  ⟨(C3_unlock_attempts modelAEAD kmA cexStorage initialSession).1,
   (C3_unlock_attempts modelAEAD kmA cexStorage initialSession).2 (by decide)⟩

/-- Claim C10: in every session state reachable from the initial state
(locked, no keying material) by any sequence of unlock and lock calls, the
unlock flag holds exactly when keying material is held. -/
theorem C10_session_coupling (A : AEAD) (ops : List SessionOp) :
    (runOps A initialSession ops).isUnlocked = true ↔
      (runOps A initialSession ops).currentPasskeyKeyMaterial ≠ none := by
  have h : SessionCoupled (runOps A initialSession ops) :=
    runOps_coupled A ops initialSession rfl
  unfold SessionCoupled at h
  rw [h]
  cases (runOps A initialSession ops).currentPasskeyKeyMaterial <;> simp

/-- Witness for C10 at a concrete call sequence. -/
theorem C10_session_coupling_witness :
    (runOps modelAEAD initialSession [SessionOp.unlock [] kmA, SessionOp.lock]).isUnlocked = true
      ↔ (runOps modelAEAD initialSession
          [SessionOp.unlock [] kmA, SessionOp.lock]).currentPasskeyKeyMaterial ≠ none :=
  C10_session_coupling modelAEAD [SessionOp.unlock [] kmA, SessionOp.lock]

/-- Witness for C4 at concrete inputs. -/
theorem C4_envelope_format_witness :
    ∃ ct, ct = modelAEAD.enc kmA salt0 iv0 (strToBytes (boolCodec.str true)) ∧
      getItem (saveData modelAEAD boolCodec salt0 iv0 true ⟨true, some kmA⟩ [] "accounts" true)
          "accounts" =
        some (encTag ++ base64Encode (salt0 ++ iv0 ++ ct)) ∧
      base64Decode (base64Encode (salt0 ++ iv0 ++ ct)) = some (salt0 ++ iv0 ++ ct) ∧
      (salt0 ++ iv0 ++ ct).take 16 = salt0 ∧
      ((salt0 ++ iv0 ++ ct).drop 16).take 12 = iv0 ∧
      (salt0 ++ iv0 ++ ct).drop 28 = ct ∧
      decryptData modelAEAD (base64Encode (salt0 ++ iv0 ++ ct)) kmA =
        Except.ok (boolCodec.str true) :=
  C4_envelope_format modelAEAD boolCodec salt0 iv0 ⟨true, some kmA⟩ [] "accounts" true kmA rfl
    (by decide) (by decide) (by decide) (by decide) (by decide)

/-- Claim C6: lockStorage always succeeds unconditionally and clears the
keying-material holder and the unlock flag; while a session holds no keying
material — in particular right after lockStorage, and until an unlock
succeeds, since loads do not change the session — every load of a record
bearing the encrypted tag fails with the session-required kind. -/
theorem C6_lock_then_load {α : Type} (A : AEAD) (J : Codec α) (canUse : Bool) (s : Session)
    (st : Storage) (key : String) (deflt : α) (stored : String)
    (hget : getItem st key = some stored) (htag : strStartsWith stored encTag = true) :
    lockStorage s = ⟨false, none⟩ ∧
    (∀ s2 : Session, s2.currentPasskeyKeyMaterial = none →
      loadData A J canUse s2 st key deflt =
        ⟨deflt, some LoadError.encryptionSessionRequired⟩) ∧
    loadData A J canUse (lockStorage s) st key deflt =
      ⟨deflt, some LoadError.encryptionSessionRequired⟩ := by
  have hload : ∀ s2 : Session, s2.currentPasskeyKeyMaterial = none →
      loadData A J canUse s2 st key deflt =
        ⟨deflt, some LoadError.encryptionSessionRequired⟩ := by
    intro s2 hnone
    cases canUse <;> simp [loadData, hget, htag, hnone]
  exact ⟨rfl, hload, hload (lockStorage s) rfl⟩

/-- Witness for C6 at concrete inputs. -/
theorem C6_lock_then_load_witness :
    lockStorage ⟨true, some kmA⟩ = (⟨false, none⟩ : Session) ∧
    (∀ s2 : Session, s2.currentPasskeyKeyMaterial = none →
      loadData modelAEAD boolCodec true s2 cexStorage "alpha" false =
        ⟨false, some LoadError.encryptionSessionRequired⟩) ∧
    loadData modelAEAD boolCodec true (lockStorage ⟨true, some kmA⟩) cexStorage "alpha" false =
      ⟨false, some LoadError.encryptionSessionRequired⟩ :=
  C6_lock_then_load modelAEAD boolCodec true ⟨true, some kmA⟩ cexStorage "alpha" false
    (tagged (encryptData modelAEAD salt0 iv0 "false" kmA)) (by decide) (by decide)

/-- Claim C7: with encryption usable, and the session coupling of claim C10
holding, a save in the unlocked state writes the tagged sealed blob of the
serialized value and a save in the locked state writes the plain JSON
string; the lock state fully determines the format, and records under other
keys are never altered. -/
theorem C7_save_format {α : Type} (A : AEAD) (J : Codec α) (salt iv : List Nat) (s : Session)
    (st : Storage) (key : String) (v : α)
    (hcoup : s.isUnlocked = s.currentPasskeyKeyMaterial.isSome) :
    (s.isUnlocked = true →
      ∃ km, s.currentPasskeyKeyMaterial = some km ∧
        getItem (saveData A J salt iv true s st key v) key =
          some (tagged (encryptData A salt iv (J.str v) km)) ∧
        strStartsWith (tagged (encryptData A salt iv (J.str v) km)) encTag = true) ∧
    (s.isUnlocked = false →
      getItem (saveData A J salt iv true s st key v) key = some (J.str v) ∧
      strStartsWith (J.str v) encTag = false) ∧
    (∀ k2, k2 ≠ key →
      getItem (saveData A J salt iv true s st key v) k2 = getItem st k2) := by
  cases hkm : s.currentPasskeyKeyMaterial with
  | some km =>
    rw [hkm] at hcoup
    have hsave : saveData A J salt iv true s st key v =
        setItem st key (tagged (encryptData A salt iv (J.str v) km)) := by
      unfold saveData
      rw [hkm]
      rfl
    refine ⟨fun _ => ⟨km, rfl, ?_, strStartsWith_tagged _⟩, fun hfalse => ?_, fun k2 hne => ?_⟩
    · rw [hsave]
      exact getItem_setItem_self st key _
    · rw [hfalse] at hcoup
      simp at hcoup
    · rw [hsave]
      exact getItem_setItem_other st key _ k2 hne
  | none =>
    rw [hkm] at hcoup
    have hsave : saveData A J salt iv true s st key v = setItem st key (J.str v) := by
      unfold saveData
      rw [hkm]
      rfl
    refine ⟨fun htrue => ?_, fun _ => ⟨?_, J.str_not_tagged v⟩, fun k2 hne => ?_⟩
    · rw [htrue] at hcoup
      simp at hcoup
    · rw [hsave]
      exact getItem_setItem_self st key _
    · rw [hsave]
      exact getItem_setItem_other st key _ k2 hne

/-- Witness for C7 at concrete inputs. -/
theorem C7_save_format_witness :
    ((⟨true, some kmA⟩ : Session).isUnlocked = true →
      ∃ km, (⟨true, some kmA⟩ : Session).currentPasskeyKeyMaterial = some km ∧
        getItem (saveData modelAEAD boolCodec salt0 iv0 true ⟨true, some kmA⟩ [] "accounts" true)
            "accounts" =
          some (tagged (encryptData modelAEAD salt0 iv0 (boolCodec.str true) km)) ∧
        strStartsWith (tagged (encryptData modelAEAD salt0 iv0 (boolCodec.str true) km)) encTag
          = true) ∧
    ((⟨true, some kmA⟩ : Session).isUnlocked = false →
      getItem (saveData modelAEAD boolCodec salt0 iv0 true ⟨true, some kmA⟩ [] "accounts" true)
          "accounts" =
        some (boolCodec.str true) ∧
      strStartsWith (boolCodec.str true) encTag = false) ∧
    (∀ k2, k2 ≠ "accounts" →
      getItem (saveData modelAEAD boolCodec salt0 iv0 true ⟨true, some kmA⟩ [] "accounts" true) k2
        = getItem [] k2) :=
  C7_save_format modelAEAD boolCodec salt0 iv0 ⟨true, some kmA⟩ [] "accounts" true rfl

/-- Claim C9: a decryption failure inside loadData is not swallowed: it
reaches the caller through the error field with the specific
invalid-key-material kind (the rethrown authentication failure), distinct
from the other failure kinds, and the code performs no retry — the result is
fully determined by the single decryption attempt. -/
theorem C9_load_error_propagation {α : Type} (A : AEAD) (J : Codec α) (s : Session)
    (st : Storage) (key : String) (deflt : α) (stored : String) (km : List Nat)
    (hget : getItem st key = some stored) (htag : strStartsWith stored encTag = true)
    (hkm : s.currentPasskeyKeyMaterial = some km)
    (hfail : decryptData A (strDrop stored 10) km =
      Except.error CryptoError.authenticationFailed) :
    loadData A J true s st key deflt = ⟨deflt, some LoadError.invalidKeyMaterial⟩ ∧
    (loadData A J true s st key deflt).error ≠ none := by
  have h : loadData A J true s st key deflt = ⟨deflt, some LoadError.invalidKeyMaterial⟩ := by
    simp [loadData, hget, htag, hkm, hfail]
  refine ⟨h, ?_⟩
  rw [h]
  exact Option.some_ne_none _

/-- Witness for C9 at concrete inputs: the first record of the storage was
sealed under different keying material. -/
theorem C9_load_error_propagation_witness :
    loadData modelAEAD boolCodec true ⟨true, some kmB⟩ cexStorage "alpha" false =
      ⟨false, some LoadError.invalidKeyMaterial⟩ ∧
    (loadData modelAEAD boolCodec true ⟨true, some kmB⟩ cexStorage "alpha" false).error
      ≠ none :=
  C9_load_error_propagation modelAEAD boolCodec ⟨true, some kmB⟩ cexStorage "alpha" false
    (tagged (encryptData modelAEAD salt0 iv0 "false" kmA)) kmB (by decide) (by decide) rfl
    (by decide)

/-- Claim C8: with the session unlocked and a plaintext JSON record stored,
migrating twice leaves the record encrypted after each call with the
decrypted content equal to the original value both times, the second call
changing nothing; migrating while no keying material is held raises the
cannot-migrate error. -/
theorem C8_migrate_idempotent {α : Type} (A : AEAD) (J : Codec α)
    (salt1 iv1 salt2 iv2 : List Nat) (s : Session) (st : Storage) (key : String) (v : α)
    (km : List Nat) (hsess : s.currentPasskeyKeyMaterial = some km) (hkm : KMValid km)
    (hget : getItem st key = some (J.str v))
    (hs1 : salt1.length = 16) (hsb1 : IsBytes salt1)
    (hi1 : iv1.length = 12) (hib1 : IsBytes iv1) :
    (∃ st1, migrateToEncrypted A J salt1 iv1 true s st key = Except.ok (st1, some v) ∧
      getItem st1 key = some (tagged (encryptData A salt1 iv1 (J.str v) km)) ∧
      strStartsWith (tagged (encryptData A salt1 iv1 (J.str v) km)) encTag = true ∧
      decryptData A (strDrop (tagged (encryptData A salt1 iv1 (J.str v) km)) 10) km =
        Except.ok (J.str v) ∧
      J.par (J.str v) = some v ∧
      migrateToEncrypted A J salt2 iv2 true s st1 key = Except.ok (st1, none)) ∧
    (∀ s2 : Session, s2.currentPasskeyKeyMaterial = none → ∀ canUse : Bool,
      migrateToEncrypted A J salt2 iv2 canUse s2 st key =
        Except.error MigrateError.notAvailable) := by
  constructor
  · refine ⟨setItem st key (tagged (encryptData A salt1 iv1 (J.str v) km)), ?_, ?_, ?_, ?_, ?_, ?_⟩
    · simp [migrateToEncrypted, hsess, hget, J.str_not_tagged, J.par_str, saveData]
    · exact getItem_setItem_self st key _
    · exact strStartsWith_tagged _
    · rw [strDrop_tagged]
      exact decryptData_encryptData hkm hs1 hsb1 hi1 hib1
    · exact J.par_str v
    · simp [migrateToEncrypted, hsess, getItem_setItem_self, strStartsWith_tagged]
  · intro s2 hnone canUse
    cases canUse <;> simp [migrateToEncrypted, hnone]

/-- Witness for C8 at concrete inputs. -/
theorem C8_migrate_idempotent_witness :
    (∃ st1, migrateToEncrypted modelAEAD boolCodec salt0 iv0 true ⟨true, some kmA⟩
        [("plain", boolCodec.str true)] "plain" = Except.ok (st1, some true) ∧
      getItem st1 "plain" =
        some (tagged (encryptData modelAEAD salt0 iv0 (boolCodec.str true) kmA)) ∧
      strStartsWith (tagged (encryptData modelAEAD salt0 iv0 (boolCodec.str true) kmA)) encTag
        = true ∧
      decryptData modelAEAD
          (strDrop (tagged (encryptData modelAEAD salt0 iv0 (boolCodec.str true) kmA)) 10) kmA =
        Except.ok (boolCodec.str true) ∧
      boolCodec.par (boolCodec.str true) = some true ∧
      migrateToEncrypted modelAEAD boolCodec salt0 iv0 true ⟨true, some kmA⟩ st1 "plain" =
        Except.ok (st1, none)) ∧
    (∀ s2 : Session, s2.currentPasskeyKeyMaterial = none → ∀ canUse : Bool,
      migrateToEncrypted modelAEAD boolCodec salt0 iv0 canUse s2
          [("plain", boolCodec.str true)] "plain" =
        Except.error MigrateError.notAvailable) :=
  C8_migrate_idempotent modelAEAD boolCodec salt0 iv0 salt0 iv0 ⟨true, some kmA⟩
    [("plain", boolCodec.str true)] "plain" true kmA rfl (by decide) (by decide) (by decide)
    (by decide) (by decide) (by decide)

end Totp
